import Mathlib

/-!
Shallow embedding of `certbot_dns_tencentcloud/certbot_tencentcloud_plugins.py`.

The DNSPod provider is modelled as an explicit state (`ProviderState`): an
association list from zone name to its record list, the provider page size
used by `DescribeRecordList`, and the next record identifier the provider
will assign.  The SDK calls (`DescribeRecordList`, `CreateRecord`,
`DeleteRecord`) are pure functions over this state; Python exceptions are
modelled with `Except`, and the distinction between the raw SDK response
object and the dict produced by `json.loads(response.to_json_string())`
is modelled by `RespObj` (subscripting a raw response object raises a
`TypeError`, as `AbstractModel` has no `__getitem__`).
-/

namespace TencentDNS

/-- A DNS record as the plugin sees it in a `DescribeRecordList` response:
relative name, record type, value, TTL and the provider-assigned id. -/
structure DNSRecord where
  Name : String
  «Type» : String
  Value : String
  TTL : Nat
  RecordId : Nat
deriving Repr, DecidableEq

/-- The provider-side state: zones with their record lists, the page size of
`DescribeRecordList`, and the next record id `CreateRecord` will assign. -/
structure ProviderState where
  zones : List (String × List DNSRecord)
  pageSize : Nat
  nextId : Nat
deriving Repr, DecidableEq

/-- Look a zone up in the provider's zone table (first match). -/
def zfind : List (String × List DNSRecord) → String → Option (List DNSRecord)
  | [], _ => none
  | (k', v) :: rest, k => if k' = k then some v else zfind rest k

/-- Replace the record list of zone `k` (other zones unchanged). -/
def updateZone : List (String × List DNSRecord) → String → List DNSRecord →
    List (String × List DNSRecord)
  | [], _, _ => []
  | (k', w) :: rest, k, v =>
      (if k' = k then (k, v) else (k', w)) :: updateZone rest k v

/-- Python exceptions relevant to the plugin:
`tcSdk` is a `TencentCloudSDKException` raised by a client call, `typeErr` is
a `TypeError` (subscripting a non-subscriptable SDK response object),
`apiMsg sub dom ty` is the `APIException` raised by `delete_record` for a
non-TXT record at the target name, and `apiWrap e` is `APIException(e)`
wrapping a caught exception. -/
inductive PyExc
  | tcSdk
  | typeErr
  | apiMsg (sub dom ty : String)
  | apiWrap (e : PyExc)
deriving Repr, DecidableEq

/-- Whether an exception is (or wraps) the non-TXT-conflict `APIException`
raised by `delete_record`. -/
def PyExc.isConflict : PyExc → Bool
  | .apiMsg _ _ _ => true
  | .apiWrap e => e.isConflict
  | _ => false

/-- Payload of a `DescribeRecordList` response: one page of records plus the
provider-reported total count (`RecordCountInfo.TotalCount`). -/
structure DescribeResp where
  RecordList : List DNSRecord
  TotalCount : Nat
deriving Repr, DecidableEq

/-- `client.DescribeRecordList` with a given `Offset`: fails if the zone is
not owned by the account, else returns one page of records and the total. -/
def sdkDescribeRecordList (s : ProviderState) (domain : String) (offset : Nat) :
    Except Unit DescribeResp :=
  match zfind s.zones domain with
  | none => .error ()
  | some recs => .ok ⟨(recs.drop offset).take s.pageSize, recs.length⟩

/-- `client.CreateRecord`: appends a record with the next free id to the
zone and returns the new state together with the `RecordId`. -/
def sdkCreateRecord (s : ProviderState)
    (domain subDomain recordType recordLine value : String) (ttl : Nat) :
    Except Unit (ProviderState × Nat) :=
  match zfind s.zones domain with
  | none => .error ()
  | some recs =>
      .ok (⟨updateZone s.zones domain
              (recs ++ [⟨subDomain, recordType, value, ttl, s.nextId⟩]),
            s.pageSize, s.nextId + 1⟩, s.nextId)

/-- `client.DeleteRecord`: removes the record with the given id from the
zone; raises if the zone or the record id is unknown. -/
def sdkDeleteRecord (s : ProviderState) (domain : String) (recordId : Nat) :
    Except Unit ProviderState :=
  match zfind s.zones domain with
  | none => .error ()
  | some recs =>
      if recs.any (fun r => r.RecordId == recordId) then
        .ok ⟨updateZone s.zones domain
               (recs.filter (fun r => r.RecordId != recordId)),
             s.pageSize, s.nextId⟩
      else .error ()

/-- The value bound to `resp` in `describe_record_list`: either the dict
obtained from `json.loads(response.to_json_string())` or the raw SDK
response object (which the buggy loop body re-binds without parsing). -/
inductive RespObj
  | raw (r : DescribeResp)
  | parsed (r : DescribeResp)
deriving Repr, DecidableEq

/-- Model of `resp["RecordList"]`: works on the parsed dict, raises
`TypeError` on the raw SDK response object. -/
def RespObj.getRecordList : RespObj → Except PyExc (List DNSRecord)
  | .parsed r => .ok r.RecordList
  | .raw _ => .error .typeErr

/-- Model of `resp["RecordCountInfo"]["TotalCount"]`: works on the parsed
dict, raises `TypeError` on the raw SDK response object. -/
def RespObj.getTotalCount : RespObj → Except PyExc Nat
  | .parsed r => .ok r.TotalCount
  | .raw _ => .error .typeErr

/-- The `while resp["RecordCountInfo"]["TotalCount"] > len(records)` loop of
`describe_record_list`.  Each iteration re-binds `resp` to the *raw* SDK
response (the source omits `json.loads` inside the loop) and then extends
`records` with `resp["RecordList"]`.  `fuel` bounds the iteration count. -/
def drlLoop (s : ProviderState) (domain : String) :
    Nat → RespObj → List DNSRecord → Except PyExc (List DNSRecord)
  | 0, _, records => .ok records
  | fuel + 1, resp, records =>
    match resp.getTotalCount with
    | .error e => .error e
    | .ok total =>
      if records.length < total then
        match sdkDescribeRecordList s domain records.length with
        | .error _ => .error .tcSdk
        | .ok r2 =>
          match (RespObj.raw r2).getRecordList with
          | .error e => .error e
          | .ok page => drlLoop s domain fuel (.raw r2) (records ++ page)
      else .ok records

/-- `Authenticator.describe_record_list`: first page parsed with
`json.loads`, then the pagination loop; any exception is caught and
re-raised as `APIException(e)`. -/
def describe_record_list (s : ProviderState) (domain : String) :
    Except PyExc (List DNSRecord) :=
  match sdkDescribeRecordList s domain 0 with
  | .error _ => .error (.apiWrap .tcSdk)
  | .ok response =>
    match drlLoop s domain (response.TotalCount + 1)
        (.parsed response) response.RecordList with
    | .error e => .error (.apiWrap e)
    | .ok records => .ok records

/-- Helper for `splitDots`, structural over the character list. -/
def splitDotsAux : List Char → List String
  | [] => [""]
  | c :: cs =>
    if c = '.' then "" :: splitDotsAux cs
    else
      match splitDotsAux cs with
      | [] => [⟨[c]⟩]
      | t :: ts => ⟨c :: t.data⟩ :: ts

/-- Python `domain.split(".")`: the dot-separated labels of a domain name
(the empty string yields `[""]`, as in Python). -/
def splitDots (s : String) : List String := splitDotsAux s.data

/-- Python `s.endswith(p)`: whether `p` is a suffix of `s`. -/
def pyEndsWith (s p : String) : Bool :=
  s.data.drop (s.data.length - p.data.length) == p.data

/-- Candidate suffixes probed by `determine_base_domain`, in probe order:
`candsFrom segments n = [segments[n-1:], segments[n-2:], ..., segments[0:]]`
joined with dots. -/
def candsFrom (segments : List String) : Nat → List String
  | 0 => []
  | n + 1 => String.intercalate "." (segments.drop n) :: candsFrom segments n

/-- The `while i >= 0` loop of `determine_base_domain`: argument `n` stands
for `i + 1` (so `n = 0` means `i` has gone below zero).  Each step forms
the candidate `".".join(segments[i:])`, appends it to `tried`, and probes
it with `describe_record_list`; an `APIException` means the account does
not own that suffix and probing continues with the next shorter `i`. -/
def dbdLoop (s : ProviderState) (segments : List String) :
    Nat → List String → Except (List String) (String × List DNSRecord)
  | 0, tried => .error tried
  | n + 1, tried =>
    match describe_record_list s (String.intercalate "." (segments.drop n)) with
    | .error _ =>
        dbdLoop s segments n (tried ++ [String.intercalate "." (segments.drop n)])
    | .ok resp => .ok (String.intercalate "." (segments.drop n), resp)

/-- `Authenticator.determine_base_domain`: splits the domain on dots and
probes suffixes starting at index `len(segments) - 2`; on exhaustion raises
`PluginError` carrying the tried list. -/
def determine_base_domain (s : ProviderState) (domain : String) :
    Except (List String) (String × List DNSRecord) :=
  dbdLoop s (splitDots domain) ((splitDots domain).length - 1) []

/-- The relative name computed by `_perform`:
`validation_name[: -(len(base_domain) + 1)]`. -/
def sub_domain_of (validation_name base_domain : String) : String :=
  validation_name.take (validation_name.length - (base_domain.length + 1))

/-- The `for record in records` loop of `Authenticator.delete_record`:
iterates over the listing snapshot, deleting every record whose `Name`
equals the target subdomain, and raising `APIException` if such a record
has a type other than TXT.  Errors carry the provider state reached so
far (deletions already performed are not rolled back). -/
def deleteLoop (base sub : String) :
    List DNSRecord → ProviderState → Except (PyExc × ProviderState) ProviderState
  | [], s => .ok s
  | r :: rest, s =>
    if r.Name = sub then
      if r.«Type» ≠ "TXT" then
        .error (.apiMsg sub base r.«Type», s)
      else
        match sdkDeleteRecord s base r.RecordId with
        | .error _ => .error (.tcSdk, s)
        | .ok s' => deleteLoop base sub rest s'
    else deleteLoop base sub rest s

/-- `Authenticator.delete_record`: lists the zone, then deletes every record
at the target relative name (requiring each to be of type TXT). -/
def delete_record (s : ProviderState) (domain subdomain : String) :
    Except (PyExc × ProviderState) ProviderState :=
  match describe_record_list s domain with
  | .error e => .error (e, s)
  | .ok records => deleteLoop domain subdomain records s

/-- The in-memory `cleanup_maps` dict: validation hostname to
(base domain, record id). -/
abbrev CleanupMap := List (String × String × Nat)

/-- Python dict lookup (first matching key). -/
def dictFind : CleanupMap → String → Option (String × Nat)
  | [], _ => none
  | (k', v) :: rest, k => if k' = k then some v else dictFind rest k

/-- Replace the value stored under key `k`, keeping its position. -/
def dictReplace : CleanupMap → String → (String × Nat) → CleanupMap
  | [], _, _ => []
  | (k', w) :: rest, k, v =>
      (if k' = k then (k, v) else (k', w)) :: dictReplace rest k v

/-- Python dict assignment: replace the value if the key exists, else
append the new binding. -/
def dictInsert (m : CleanupMap) (k : String) (v : String × Nat) : CleanupMap :=
  match dictFind m k with
  | some _ => dictReplace m k v
  | none => m ++ [(k, v)]

/-- Errors surfaced by `_perform`: `plugin tried` is the `PluginError` of
`determine_base_domain`, `pluginBase` the `PluginError` of
`chk_base_domain`, and `exc e` the `APIException(e)` re-raised from the
try block. -/
inductive SetupErr
  | plugin (tried : List String)
  | pluginBase
  | exc (e : PyExc)
deriving Repr, DecidableEq

/-- `Authenticator._perform`: resolve the base domain, check the suffix
invariant, pre-clean existing records at the relative name, create the
TXT record with the validation token and TTL 600, and remember
`(base_domain, record_id)` in the cleanup map.  Errors carry the provider
state at the point the exception was raised. -/
def perform (s : ProviderState) (m : CleanupMap)
    (domain validation_name validation : String) :
    Except (SetupErr × ProviderState) (ProviderState × CleanupMap) :=
  match determine_base_domain s domain with
  | .error tried => .error (.plugin tried, s)
  | .ok (base_domain, _) =>
    if pyEndsWith validation_name ("." ++ base_domain) then
      match delete_record s base_domain (sub_domain_of validation_name base_domain) with
      | .error (e, s') => .error (.exc (.apiWrap e), s')
      | .ok s' =>
        match sdkCreateRecord s' base_domain
            (sub_domain_of validation_name base_domain) "TXT" "默认" validation 600 with
        | .error _ => .error (.exc (.apiWrap .tcSdk), s')
        | .ok (s2, record_id) =>
            .ok (s2, dictInsert m validation_name (base_domain, record_id))
    else .error (.pluginBase, s)

/-- `Authenticator._cleanup`: if the validation hostname has an entry,
delete the recorded record id in the recorded zone, re-raising any failure
as `APIException(e)`; otherwise log and return.  The cleanup map itself is
never modified. -/
def cleanup (s : ProviderState) (m : CleanupMap)
    (domain validation_name validation : String) :
    Except PyExc Unit × ProviderState × CleanupMap :=
  match dictFind m validation_name with
  | some (base_domain, record_id) =>
    match sdkDeleteRecord s base_domain record_id with
    | .error _ => (.error (.apiWrap .tcSdk), s, m)
    | .ok s' => (.ok (), s', m)
  | none => (.ok (), s, m)

/-- The records of zone `z` whose relative name is `name`. -/
def recordsAt (s : ProviderState) (z name : String) : List DNSRecord :=
  match zfind s.zones z with
  | none => []
  | some l => l.filter (fun r => r.Name == name)

end TencentDNS

namespace TencentDNS

theorem zfind_updateZone_self (zs : List (String × List DNSRecord)) (k : String)
    (v v' : List DNSRecord) (h : zfind zs k = some v') :
    zfind (updateZone zs k v) k = some v := by
  induction zs with
  | nil => simp [zfind] at h
  | cons p rest ih =>
    obtain ⟨k', w⟩ := p
    by_cases hk : k' = k
    · subst hk
      rw [updateZone, if_pos rfl]
      simp [zfind]
    · simp only [zfind, if_neg hk] at h
      rw [updateZone, if_neg hk]
      simp only [zfind]
      rw [if_neg hk]
      exact ih h

theorem dictFind_append_of_none (m : CleanupMap) (k : String) (v : String × Nat)
    (h : dictFind m k = none) : dictFind (m ++ [(k, v)]) k = some v := by
  induction m with
  | nil => simp [dictFind]
  | cons p rest ih =>
    obtain ⟨k', w⟩ := p
    by_cases hk : k' = k
    · simp [dictFind, if_pos hk] at h
    · simp only [dictFind, if_neg hk] at h
      simpa [dictFind, if_neg hk] using ih h

theorem dictFind_dictReplace_self (m : CleanupMap) (k : String) (v w : String × Nat)
    (h : dictFind m k = some w) :
    dictFind (dictReplace m k v) k = some v := by
  induction m with
  | nil => simp [dictFind] at h
  | cons p rest ih =>
    obtain ⟨k', w'⟩ := p
    by_cases hk : k' = k
    · subst hk
      rw [dictReplace, if_pos rfl]
      simp [dictFind]
    · simp only [dictFind, if_neg hk] at h
      rw [dictReplace, if_neg hk]
      simp only [dictFind]
      rw [if_neg hk]
      exact ih h

theorem dictFind_dictInsert_self (m : CleanupMap) (k : String) (v : String × Nat) :
    dictFind (dictInsert m k v) k = some v := by
  unfold dictInsert
  cases hf : dictFind m k with
  | none => exact dictFind_append_of_none m k v hf
  | some w => exact dictFind_dictReplace_self m k v w hf

theorem describe_ok_zfind (s : ProviderState) (z : String) (l : List DNSRecord)
    (h : describe_record_list s z = .ok l) : zfind s.zones z = some l := by
  unfold describe_record_list at h
  cases hz : zfind s.zones z with
  | none => simp [sdkDescribeRecordList, hz] at h
  | some recs =>
    simp only [sdkDescribeRecordList, hz, List.drop_zero] at h
    simp only [drlLoop, RespObj.getTotalCount] at h
    by_cases hlt : (recs.take s.pageSize).length < recs.length
    · rw [if_pos hlt] at h
      simp [sdkDescribeRecordList, hz, RespObj.getRecordList] at h
    · rw [if_neg hlt] at h
      simp only [List.length_take, Nat.not_lt, Nat.le_min] at hlt
      have ht : recs.take s.pageSize = recs := List.take_of_length_le hlt.1
      rw [ht] at h
      simp only [] at h
      cases h
      rfl

theorem describe_ok_of_small (s : ProviderState) (z : String) (recs : List DNSRecord)
    (hz : zfind s.zones z = some recs) (hlen : recs.length ≤ s.pageSize) :
    describe_record_list s z = .ok recs := by
  unfold describe_record_list
  simp only [sdkDescribeRecordList, hz, List.drop_zero]
  have ht : recs.take s.pageSize = recs := List.take_of_length_le hlen
  simp only [drlLoop, RespObj.getTotalCount, ht]
  rw [if_neg (by omega)]

end TencentDNS

namespace TencentDNS

theorem dbdLoop_ok_spec (s : ProviderState) (segs : List String) :
    ∀ n tried b l, dbdLoop s segs n tried = .ok (b, l) →
      describe_record_list s b = .ok l ∧
      ∃ i, i < n ∧ b = String.intercalate "." (segs.drop i) := by
  intro n
  induction n with
  | zero =>
    intro tried b l h
    simp [dbdLoop] at h
  | succ n ih =>
    intro tried b l h
    simp only [dbdLoop] at h
    cases hd : describe_record_list s (String.intercalate "." (segs.drop n)) with
    | error e =>
      rw [hd] at h
      obtain ⟨h1, i, hi, hb⟩ := ih _ b l h
      exact ⟨h1, i, Nat.lt_succ_of_lt hi, hb⟩
    | ok resp =>
      rw [hd] at h
      have h' : (String.intercalate "." (segs.drop n), resp) = (b, l) := by
        injection h
      obtain ⟨hb, hl⟩ := Prod.mk.inj h'
      subst hb hl
      exact ⟨hd, n, Nat.lt_succ_self n, rfl⟩

theorem dbdLoop_error_tried (s : ProviderState) (segs : List String) :
    ∀ n tried t, dbdLoop s segs n tried = .error t →
      t = tried ++ candsFrom segs n := by
  intro n
  induction n with
  | zero =>
    intro tried t h
    simp only [dbdLoop] at h
    cases h
    simp [candsFrom]
  | succ n ih =>
    intro tried t h
    simp only [dbdLoop] at h
    cases hd : describe_record_list s (String.intercalate "." (segs.drop n)) with
    | error e =>
      rw [hd] at h
      rw [ih _ _ h, candsFrom]
      simp
    | ok resp =>
      rw [hd] at h
      simp at h

theorem candsFrom_mem (segs : List String) :
    ∀ n c, c ∈ candsFrom segs n →
      ∃ i, i < n ∧ c = String.intercalate "." (segs.drop i) := by
  intro n
  induction n with
  | zero =>
    intro c hc
    simp [candsFrom] at hc
  | succ n ih =>
    intro c hc
    rw [candsFrom] at hc
    rcases List.mem_cons.1 hc with hc | hc
    · exact ⟨n, Nat.lt_succ_self n, hc⟩
    · obtain ⟨i, hi, hci⟩ := ih c hc
      exact ⟨i, Nat.lt_succ_of_lt hi, hci⟩

theorem determine_ok_describe (s : ProviderState) (d b : String) (l : List DNSRecord)
    (h : determine_base_domain s d = .ok (b, l)) :
    describe_record_list s b = .ok l :=
  (dbdLoop_ok_spec s _ _ _ b l h).1

end TencentDNS

namespace TencentDNS

theorem sdkDeleteRecord_ok_spec (s : ProviderState) (d : String) (rid : Nat)
    (s' : ProviderState) (h : sdkDeleteRecord s d rid = .ok s') :
    ∃ recs, zfind s.zones d = some recs ∧
      s' = ⟨updateZone s.zones d (recs.filter (fun r => r.RecordId != rid)),
            s.pageSize, s.nextId⟩ := by
  cases hz : zfind s.zones d with
  | none => simp [sdkDeleteRecord, hz] at h
  | some recs =>
    simp only [sdkDeleteRecord, hz] at h
    by_cases ha : recs.any (fun r => r.RecordId == rid) = true
    · rw [if_pos ha] at h
      have h' : s' = ⟨updateZone s.zones d (recs.filter (fun r => r.RecordId != rid)),
          s.pageSize, s.nextId⟩ := by
        injection h with h2
        exact h2.symm
      exact ⟨recs, rfl, h'⟩
    · rw [if_neg ha] at h
      simp at h

theorem deleteLoop_ok_clears (base sub : String) :
    ∀ (L : List DNSRecord) (s s' : ProviderState) (l : List DNSRecord),
      deleteLoop base sub L s = .ok s' →
      zfind s.zones base = some l →
      (∀ r ∈ l, r.Name = sub → r ∈ L) →
      ∃ l', zfind s'.zones base = some l' ∧ List.Sublist l' l ∧
        ∀ r ∈ l', r.Name ≠ sub := by
  intro L
  induction L with
  | nil =>
    intro s s' l h hz hmem
    simp only [deleteLoop] at h
    cases h
    refine ⟨l, hz, List.Sublist.refl l, fun r hr hn => ?_⟩
    exact absurd (hmem r hr hn) (List.not_mem_nil r)
  | cons r0 rest ih =>
    intro s s' l h hz hmem
    simp only [deleteLoop] at h
    by_cases hname : r0.Name = sub
    · rw [if_pos hname] at h
      by_cases htype : r0.«Type» ≠ "TXT"
      · rw [if_pos htype] at h
        simp at h
      · rw [if_neg htype] at h
        cases hdel : sdkDeleteRecord s base r0.RecordId with
        | error e =>
          rw [hdel] at h
          simp at h
        | ok s1 =>
          rw [hdel] at h
          obtain ⟨recs, hrecs, hs1⟩ := sdkDeleteRecord_ok_spec s base r0.RecordId s1 hdel
          rw [hz] at hrecs
          have hrl : recs = l := by injection hrecs with h2; exact h2.symm
          subst hrl
          have hz1 : zfind s1.zones base =
              some (recs.filter (fun r => r.RecordId != r0.RecordId)) := by
            rw [hs1]
            exact zfind_updateZone_self _ _ _ _ hz
          have hmem1 : ∀ r ∈ recs.filter (fun r => r.RecordId != r0.RecordId),
              r.Name = sub → r ∈ rest := by
            intro r hr hn
            have hrf := List.mem_filter.1 hr
            rcases List.mem_cons.1 (hmem r hrf.1 hn) with h0 | h0
            · exfalso
              rw [h0] at hrf
              exact (bne_iff_ne.1 hrf.2) rfl
            · exact h0
          obtain ⟨l', hl', hsub, hns⟩ := ih s1 s' _ h hz1 hmem1
          exact ⟨l', hl', hsub.trans (List.filter_sublist recs), hns⟩
    · rw [if_neg hname] at h
      have hmem' : ∀ r ∈ l, r.Name = sub → r ∈ rest := by
        intro r hr hn
        rcases List.mem_cons.1 (hmem r hr hn) with h0 | h0
        · rw [h0] at hn
          exact absurd hn hname
        · exact h0
      exact ih s s' l h hz hmem'

theorem deleteLoop_ok_nextId (base sub : String) :
    ∀ (L : List DNSRecord) (s s' : ProviderState),
      deleteLoop base sub L s = .ok s' →
      s'.nextId = s.nextId ∧ s'.pageSize = s.pageSize := by
  intro L
  induction L with
  | nil =>
    intro s s' h
    simp only [deleteLoop] at h
    cases h
    exact ⟨rfl, rfl⟩
  | cons r0 rest ih =>
    intro s s' h
    simp only [deleteLoop] at h
    by_cases hname : r0.Name = sub
    · rw [if_pos hname] at h
      by_cases htype : r0.«Type» ≠ "TXT"
      · rw [if_pos htype] at h
        simp at h
      · rw [if_neg htype] at h
        cases hdel : sdkDeleteRecord s base r0.RecordId with
        | error e =>
          rw [hdel] at h
          simp at h
        | ok s1 =>
          rw [hdel] at h
          obtain ⟨recs, _, hs1⟩ := sdkDeleteRecord_ok_spec s base r0.RecordId s1 hdel
          obtain ⟨h1, h2⟩ := ih s1 s' h
          rw [h1, h2, hs1]
          exact ⟨rfl, rfl⟩
    · rw [if_neg hname] at h
      exact ih s s' h

end TencentDNS

namespace TencentDNS

theorem deleteLoop_conflict (base sub : String) :
    ∀ (L : List DNSRecord) (s : ProviderState) (l : List DNSRecord),
      zfind s.zones base = some l →
      (∀ x ∈ L, x ∈ l) →
      (L.map (fun r => r.RecordId)).Nodup →
      (∃ rb ∈ L, rb.Name = sub ∧ rb.«Type» ≠ "TXT") →
      ∃ ty s' l', deleteLoop base sub L s = .error (.apiMsg sub base ty, s') ∧
        ty ≠ "TXT" ∧ zfind s'.zones base = some l' ∧ List.Sublist l' l := by
  intro L
  induction L with
  | nil =>
    intro s l hz hmem hnd hbad
    obtain ⟨rb, hrb, _⟩ := hbad
    exact absurd hrb (List.not_mem_nil rb)
  | cons r0 rest ih =>
    intro s l hz hmem hnd hbad
    by_cases hname : r0.Name = sub
    · by_cases htype : r0.«Type» ≠ "TXT"
      · refine ⟨r0.«Type», s, l, ?_, htype, hz, List.Sublist.refl l⟩
        simp only [deleteLoop, if_pos hname, if_pos htype]
      · have htxt : r0.«Type» = "TXT" := not_ne_iff.1 htype
        have hr0l : r0 ∈ l := hmem r0 (List.mem_cons_self r0 rest)
        have hany : l.any (fun r => r.RecordId == r0.RecordId) = true :=
          List.any_eq_true.2 ⟨r0, hr0l, by simp⟩
        have hndc : r0.RecordId ∉ rest.map (fun r => r.RecordId) ∧
            (rest.map (fun r => r.RecordId)).Nodup := by
          rw [List.map_cons] at hnd
          exact List.nodup_cons.1 hnd
        have hz1 : zfind (ProviderState.mk (updateZone s.zones base
              (l.filter (fun r => r.RecordId != r0.RecordId))) s.pageSize s.nextId).zones base =
            some (l.filter (fun r => r.RecordId != r0.RecordId)) :=
          zfind_updateZone_self _ _ _ _ hz
        have hmem1 : ∀ x ∈ rest, x ∈ l.filter (fun r => r.RecordId != r0.RecordId) := by
          intro x hx
          refine List.mem_filter.2 ⟨hmem x (List.mem_cons_of_mem r0 hx), bne_iff_ne.2 ?_⟩
          intro hid
          exact hndc.1 (hid ▸ List.mem_map_of_mem (fun r => r.RecordId) hx)
        have hbad1 : ∃ rb ∈ rest, rb.Name = sub ∧ rb.«Type» ≠ "TXT" := by
          obtain ⟨rb, hrb, hrbn, hrbt⟩ := hbad
          rcases List.mem_cons.1 hrb with h0 | h0
          · exfalso
            rw [h0, htxt] at hrbt
            exact hrbt rfl
          · exact ⟨rb, h0, hrbn, hrbt⟩
        obtain ⟨ty, s', l', hloop, hty, hz', hsub⟩ :=
          ih (ProviderState.mk (updateZone s.zones base
              (l.filter (fun r => r.RecordId != r0.RecordId))) s.pageSize s.nextId)
            (l.filter (fun r => r.RecordId != r0.RecordId)) hz1 hmem1 hndc.2 hbad1
        refine ⟨ty, s', l', ?_, hty, hz', hsub.trans (List.filter_sublist l)⟩
        have hdel : sdkDeleteRecord s base r0.RecordId = .ok (ProviderState.mk
            (updateZone s.zones base (l.filter (fun r => r.RecordId != r0.RecordId)))
            s.pageSize s.nextId) := by
          simp only [sdkDeleteRecord, hz, if_pos hany]
        simp only [deleteLoop, if_pos hname, if_neg (not_ne_iff.2 htxt), hdel]
        exact hloop
    · have hmem1 : ∀ x ∈ rest, x ∈ l := fun x hx => hmem x (List.mem_cons_of_mem r0 hx)
      have hnd1 : (rest.map (fun r => r.RecordId)).Nodup := by
        rw [List.map_cons] at hnd
        exact (List.nodup_cons.1 hnd).2
      have hbad1 : ∃ rb ∈ rest, rb.Name = sub ∧ rb.«Type» ≠ "TXT" := by
        obtain ⟨rb, hrb, hrbn, hrbt⟩ := hbad
        rcases List.mem_cons.1 hrb with h0 | h0
        · exfalso
          rw [h0] at hrbn
          exact hname hrbn
        · exact ⟨rb, h0, hrbn, hrbt⟩
      obtain ⟨ty, s', l', hloop, hty, hz', hsub⟩ := ih s l hz hmem1 hnd1 hbad1
      refine ⟨ty, s', l', ?_, hty, hz', hsub⟩
      simp only [deleteLoop, if_neg hname]
      exact hloop

end TencentDNS

namespace TencentDNS

theorem deleteLoop_conflict_deleted (base sub : String) (r0 : DNSRecord)
    (B : List DNSRecord) :
    ∀ (A : List DNSRecord) (s : ProviderState) (l : List DNSRecord),
      zfind s.zones base = some l →
      (∀ x ∈ A ++ r0 :: B, x ∈ l) →
      ((A ++ r0 :: B).map (fun r => r.RecordId)).Nodup →
      r0.Name = sub → r0.«Type» = "TXT" →
      (∀ x ∈ A, x.Name = sub → x.«Type» = "TXT") →
      (∃ rb ∈ B, rb.Name = sub ∧ rb.«Type» ≠ "TXT") →
      ∃ ty s' l',
        deleteLoop base sub (A ++ r0 :: B) s = .error (.apiMsg sub base ty, s') ∧
        zfind s'.zones base = some l' ∧ List.Sublist l' l ∧ r0 ∉ l' := by
  intro A
  induction A with
  | nil =>
    intro s l hz hmem hnd hr0n hr0t hA hbad
    simp only [List.nil_append] at hmem hnd ⊢
    have hr0l : r0 ∈ l := hmem r0 (List.mem_cons_self r0 B)
    have hany : l.any (fun r => r.RecordId == r0.RecordId) = true :=
      List.any_eq_true.2 ⟨r0, hr0l, by simp⟩
    have hndc : r0.RecordId ∉ B.map (fun r => r.RecordId) ∧
        (B.map (fun r => r.RecordId)).Nodup := by
      rw [List.map_cons] at hnd
      exact List.nodup_cons.1 hnd
    have hz1 : zfind (ProviderState.mk (updateZone s.zones base
          (l.filter (fun r => r.RecordId != r0.RecordId))) s.pageSize s.nextId).zones base =
        some (l.filter (fun r => r.RecordId != r0.RecordId)) :=
      zfind_updateZone_self _ _ _ _ hz
    have hmem1 : ∀ x ∈ B, x ∈ l.filter (fun r => r.RecordId != r0.RecordId) := by
      intro x hx
      refine List.mem_filter.2 ⟨hmem x (List.mem_cons_of_mem r0 hx), bne_iff_ne.2 ?_⟩
      intro hid
      exact hndc.1 (hid ▸ List.mem_map_of_mem (fun r => r.RecordId) hx)
    obtain ⟨ty, s', l', hloop, hty, hz', hsub⟩ :=
      deleteLoop_conflict base sub B _ _ hz1 hmem1 hndc.2 hbad
    refine ⟨ty, s', l', ?_, hz', hsub.trans (List.filter_sublist l), ?_⟩
    · have hdel : sdkDeleteRecord s base r0.RecordId = .ok (ProviderState.mk
          (updateZone s.zones base (l.filter (fun r => r.RecordId != r0.RecordId)))
          s.pageSize s.nextId) := by
        simp only [sdkDeleteRecord, hz, if_pos hany]
      simp only [deleteLoop, if_pos hr0n, if_neg (not_ne_iff.2 hr0t), hdel]
      exact hloop
    · intro hr0'
      have hmemf := List.mem_filter.1 (hsub.mem hr0')
      exact (bne_iff_ne.1 hmemf.2) rfl
  | cons a A' ih =>
    intro s l hz hmem hnd hr0n hr0t hA hbad
    simp only [List.cons_append] at hmem hnd ⊢
    by_cases hname : a.Name = sub
    · have htxt : a.«Type» = "TXT" := hA a (List.mem_cons_self a A') hname
      have hal : a ∈ l := hmem a (List.mem_cons_self a _)
      have hany : l.any (fun r => r.RecordId == a.RecordId) = true :=
        List.any_eq_true.2 ⟨a, hal, by simp⟩
      have hndc : a.RecordId ∉ (A' ++ r0 :: B).map (fun r => r.RecordId) ∧
          ((A' ++ r0 :: B).map (fun r => r.RecordId)).Nodup := by
        rw [List.map_cons] at hnd
        exact List.nodup_cons.1 hnd
      have hz1 : zfind (ProviderState.mk (updateZone s.zones base
            (l.filter (fun r => r.RecordId != a.RecordId))) s.pageSize s.nextId).zones base =
          some (l.filter (fun r => r.RecordId != a.RecordId)) :=
        zfind_updateZone_self _ _ _ _ hz
      have hmem1 : ∀ x ∈ A' ++ r0 :: B, x ∈ l.filter (fun r => r.RecordId != a.RecordId) := by
        intro x hx
        refine List.mem_filter.2 ⟨hmem x (List.mem_cons_of_mem a hx), bne_iff_ne.2 ?_⟩
        intro hid
        exact hndc.1 (hid ▸ List.mem_map_of_mem (fun r => r.RecordId) hx)
      have hA1 : ∀ x ∈ A', x.Name = sub → x.«Type» = "TXT" :=
        fun x hx => hA x (List.mem_cons_of_mem a hx)
      obtain ⟨ty, s', l', hloop, hz', hsub, hnr0⟩ :=
        ih _ _ hz1 hmem1 hndc.2 hr0n hr0t hA1 hbad
      refine ⟨ty, s', l', ?_, hz', hsub.trans (List.filter_sublist l), hnr0⟩
      have hdel : sdkDeleteRecord s base a.RecordId = .ok (ProviderState.mk
          (updateZone s.zones base (l.filter (fun r => r.RecordId != a.RecordId)))
          s.pageSize s.nextId) := by
        simp only [sdkDeleteRecord, hz, if_pos hany]
      simp only [deleteLoop, if_pos hname, if_neg (not_ne_iff.2 htxt), hdel]
      exact hloop
    · have hmem1 : ∀ x ∈ A' ++ r0 :: B, x ∈ l :=
        fun x hx => hmem x (List.mem_cons_of_mem a hx)
      have hnd1 : ((A' ++ r0 :: B).map (fun r => r.RecordId)).Nodup := by
        rw [List.map_cons] at hnd
        exact (List.nodup_cons.1 hnd).2
      have hA1 : ∀ x ∈ A', x.Name = sub → x.«Type» = "TXT" :=
        fun x hx => hA x (List.mem_cons_of_mem a hx)
      obtain ⟨ty, s', l', hloop, hz', hsub, hnr0⟩ := ih s l hz hmem1 hnd1 hr0n hr0t hA1 hbad
      refine ⟨ty, s', l', ?_, hz', hsub, hnr0⟩
      simp only [deleteLoop, if_neg hname]
      exact hloop

end TencentDNS

namespace TencentDNS

theorem delete_record_ok_spec (s : ProviderState) (base sub : String)
    (s' : ProviderState) (h : delete_record s base sub = .ok s') :
    ∃ l, zfind s.zones base = some l ∧ deleteLoop base sub l s = .ok s' := by
  unfold delete_record at h
  split at h
  · simp at h
  · rename_i records hd
    exact ⟨records, describe_ok_zfind s base records hd, h⟩

theorem recordsAt_append_single (s : ProviderState) (z nm : String)
    (lDel : List DNSRecord) (r : DNSRecord)
    (hz : zfind s.zones z = some (lDel ++ [r]))
    (hns : ∀ x ∈ lDel, x.Name ≠ nm) (hr : r.Name = nm) :
    recordsAt s z nm = [r] := by
  simp only [recordsAt, hz]
  rw [List.filter_append]
  have h1 : lDel.filter (fun x => x.Name == nm) = [] := by
    refine List.filter_eq_nil_iff.2 (fun x hx => ?_)
    simp only [beq_iff_eq]
    exact hns x hx
  rw [h1]
  simp [hr]

theorem perform_ok_strong (s : ProviderState) (m : CleanupMap) (d vn t : String)
    (s1 : ProviderState) (m1 : CleanupMap)
    (h : perform s m d vn t = .ok (s1, m1)) :
    ∃ base resp l lDel,
      determine_base_domain s d = .ok (base, resp) ∧
      pyEndsWith vn ("." ++ base) = true ∧
      zfind s.zones base = some l ∧
      List.Sublist lDel l ∧
      (∀ r ∈ lDel, r.Name ≠ sub_domain_of vn base) ∧
      m1 = dictInsert m vn (base, s.nextId) ∧
      zfind s1.zones base = some (lDel ++
        [⟨sub_domain_of vn base, "TXT", t, 600, s.nextId⟩]) := by
  unfold perform at h
  split at h
  · simp at h
  · rename_i base resp hres
    split at h
    · rename_i hend
      split at h
      · simp at h
      · rename_i sD hdel
        split at h
        · simp at h
        · rename_i sC record_id hcreate
          obtain ⟨l, hz, hloop⟩ :=
            delete_record_ok_spec s base (sub_domain_of vn base) sD hdel
          obtain ⟨lDel, hzD, hsub, hns⟩ :=
            deleteLoop_ok_clears base (sub_domain_of vn base) l s sD l hloop hz
              (fun r hr _ => hr)
          obtain ⟨hnid, _⟩ :=
            deleteLoop_ok_nextId base (sub_domain_of vn base) l s sD hloop
          simp only [sdkCreateRecord, hzD] at hcreate
          have hc' : (ProviderState.mk (updateZone sD.zones base (lDel ++
                [⟨sub_domain_of vn base, "TXT", t, 600, sD.nextId⟩]))
                sD.pageSize (sD.nextId + 1), sD.nextId) = (sC, record_id) := by
            injection hcreate
          obtain ⟨hsC, hrid⟩ := Prod.mk.inj hc'
          have hp : (sC, dictInsert m vn (base, record_id)) = (s1, m1) := by
            injection h
          obtain ⟨hs1, hm1⟩ := Prod.mk.inj hp
          refine ⟨base, resp, l, lDel, hres, hend, hz, hsub, hns, ?_, ?_⟩
          · rw [← hm1, ← hrid, hnid]
          · rw [← hs1, ← hsC, ← hnid]
            exact zfind_updateZone_self _ _ _ _ hzD
    · simp at h

end TencentDNS

namespace TencentDNS

theorem dbdLoop_step_error (s : ProviderState) (segs : List String) (n : Nat)
    (tried : List String) (e : PyExc)
    (h : describe_record_list s (String.intercalate "." (segs.drop n)) = .error e) :
    dbdLoop s segs (n + 1) tried =
      dbdLoop s segs n (tried ++ [String.intercalate "." (segs.drop n)]) := by
  simp only [dbdLoop, h]

theorem dbdLoop_step_ok (s : ProviderState) (segs : List String) (n : Nat)
    (tried : List String) (l : List DNSRecord)
    (h : describe_record_list s (String.intercalate "." (segs.drop n)) = .ok l) :
    dbdLoop s segs (n + 1) tried = .ok (String.intercalate "." (segs.drop n), l) := by
  simp only [dbdLoop, h]

/-- Claim C9: base-domain resolution over a domain with fewer than 2 labels
fails immediately with the `PluginError`, attempting no candidate: the
reported tried list is empty. -/
theorem resolver_short_domain_fails (s : ProviderState) (d : String)
    (h : (splitDots d).length < 2) :
    determine_base_domain s d = .error [] := by
  unfold determine_base_domain
  have h0 : (splitDots d).length - 1 = 0 := by omega
  rw [h0]
  rfl

theorem resolver_short_domain_fails_witness :
    (splitDots "com").length < 2 ∧
      determine_base_domain ⟨[("example.com", [])], 100, 0⟩ "com" = .error [] :=
  ⟨by decide,
   resolver_short_domain_fails ⟨[("example.com", [])], 100, 0⟩ "com" (by decide)⟩

/-- Claim C1 counterexample: an invocation of `_cleanup` with a recorded
entry whose provider deletion fails re-raises `APIException(e)`: the error
is propagated to the caller, not swallowed. -/
theorem cleanup_error_propagates_cex :
    (cleanup ⟨[("example.com", [])], 100, 0⟩
        [("v.example.com", "example.com", 7)]
        "example.com" "v.example.com" "tok").1 =
      .error (.apiWrap .tcSdk) := rfl

/-- Claim C1 (amended): `_cleanup` returns successfully (logging only) when
no CleanupEntry exists for the validation hostname, and returns
successfully when the recorded deletion succeeds; but when the recorded
record's deletion fails the exception is logged and re-raised as
`APIException(e)`, i.e. propagated to the caller. -/
theorem cleanup_behavior_amended (s : ProviderState) (m : CleanupMap)
    (d vn t : String) :
    (dictFind m vn = none → cleanup s m d vn t = (.ok (), s, m)) ∧
    (∀ b rid, dictFind m vn = some (b, rid) →
      sdkDeleteRecord s b rid = .error () →
      cleanup s m d vn t = (.error (.apiWrap .tcSdk), s, m)) ∧
    (∀ b rid s', dictFind m vn = some (b, rid) →
      sdkDeleteRecord s b rid = .ok s' →
      cleanup s m d vn t = (.ok (), s', m)) := by
  refine ⟨?_, ?_, ?_⟩
  · intro hf
    simp only [cleanup, hf]
  · intro b rid hf hdel
    simp only [cleanup, hf, hdel]
  · intro b rid s' hf hdel
    simp only [cleanup, hf, hdel]

theorem cleanup_behavior_amended_witness :
    cleanup ⟨[("z.com", [])], 100, 0⟩ [] "z.com" "v.z.com" "tok" =
      (.ok (), ⟨[("z.com", [])], 100, 0⟩, []) ∧
    cleanup ⟨[("z.com", [])], 100, 0⟩ [("v.z.com", "z.com", 3)]
        "z.com" "v.z.com" "tok" =
      (.error (.apiWrap .tcSdk), ⟨[("z.com", [])], 100, 0⟩,
        [("v.z.com", "z.com", 3)]) :=
  ⟨(cleanup_behavior_amended ⟨[("z.com", [])], 100, 0⟩ [] "z.com" "v.z.com" "tok").1 rfl,
   (cleanup_behavior_amended ⟨[("z.com", [])], 100, 0⟩ [("v.z.com", "z.com", 3)]
      "z.com" "v.z.com" "tok").2.1 "z.com" 3 rfl rfl⟩

/-- Claim C2 counterexample: after a Cleanup whose provider deletion
succeeded, the CleanupEntry is still present in the map. -/
theorem cleanup_map_retained_cex :
    (cleanup ⟨[("example.com", [⟨"_ac", "TXT", "tok", 600, 7⟩])], 100, 8⟩
        [("_ac.example.com", "example.com", 7)]
        "example.com" "_ac.example.com" "tok").1 = .ok () ∧
    dictFind (cleanup ⟨[("example.com", [⟨"_ac", "TXT", "tok", 600, 7⟩])], 100, 8⟩
        [("_ac.example.com", "example.com", 7)]
        "example.com" "_ac.example.com" "tok").2.2 "_ac.example.com" =
      some ("example.com", 7) :=
  ⟨rfl, rfl⟩

/-- Claim C2 (amended): `_cleanup` never removes anything from the cleanup
map: the map after any Cleanup call is exactly the map before it, whether
the deletion succeeded, failed, or no entry existed. -/
theorem cleanup_map_unchanged (s : ProviderState) (m : CleanupMap)
    (d vn t : String) : (cleanup s m d vn t).2.2 = m := by
  unfold cleanup
  split
  · split <;> rfl
  · rfl

/-- Claim C5 (code bug): for a zone whose records span more than one page
(here 2 records with page size 1), `describe_record_list` does not return
the concatenation of the pages: the loop body re-binds `resp` to the raw
SDK response object without `json.loads`, subscripting it raises
`TypeError`, and the function raises `APIException` instead. -/
theorem pagination_raises_on_second_page :
    describe_record_list
      ⟨[("example.com",
         [⟨"a", "TXT", "v1", 600, 1⟩, ⟨"b", "TXT", "v2", 600, 2⟩])], 1, 3⟩
      "example.com" = .error (.apiWrap .typeErr) := rfl

/-- Claim C4 counterexample: for the 2-label domain `a.b` the full FQDN
itself is a probed candidate (indeed the very first one): on exhaustion
the tried list is exactly `["a.b"]`. -/
theorem probe_includes_fqdn_cex :
    determine_base_domain ⟨[], 100, 0⟩ "a.b" = .error ["a.b"] := rfl

/-- Claim C4 (amended): suffix probing starts at index `len(labels)-2`, and
every candidate attempted is `labels[i:]` for some `i ≤ len(labels)-2`, so
the bare single-label TLD (`i = len(labels)-1`) is never probed; but the
candidates do include the full FQDN (`i = 0`), which is probed last: on
exhaustion the tried list is exactly `labels[len-2:], ..., labels[0:]`. -/
theorem probe_candidates_characterized (s : ProviderState) (d : String)
    (h2 : 2 ≤ (splitDots d).length) :
    (∀ tr, determine_base_domain s d = .error tr →
      tr = candsFrom (splitDots d) ((splitDots d).length - 1) ∧
      tr.head? = some (String.intercalate "."
        ((splitDots d).drop ((splitDots d).length - 2))) ∧
      ∀ c ∈ tr, ∃ i, i + 2 ≤ (splitDots d).length ∧
        c = String.intercalate "." ((splitDots d).drop i)) ∧
    (∀ b l, determine_base_domain s d = .ok (b, l) →
      ∃ i, i + 2 ≤ (splitDots d).length ∧
        b = String.intercalate "." ((splitDots d).drop i)) := by
  constructor
  · intro tr htr
    have h1 : tr = candsFrom (splitDots d) ((splitDots d).length - 1) := by
      have h0 := dbdLoop_error_tried s (splitDots d) ((splitDots d).length - 1) [] tr htr
      simpa using h0
    refine ⟨h1, ?_, ?_⟩
    · rw [h1]
      have hn : (splitDots d).length - 1 = ((splitDots d).length - 2) + 1 := by omega
      rw [hn, candsFrom]
      rfl
    · intro c hc
      rw [h1] at hc
      obtain ⟨i, hi, hci⟩ := candsFrom_mem (splitDots d) _ c hc
      exact ⟨i, by omega, hci⟩
  · intro b l hbl
    obtain ⟨_, i, hi, hb⟩ := dbdLoop_ok_spec s (splitDots d) _ _ b l hbl
    exact ⟨i, by omega, hb⟩

theorem probe_candidates_characterized_witness :
    ["b.c", "a.b.c"] =
      candsFrom (splitDots "a.b.c") ((splitDots "a.b.c").length - 1) ∧
    (["b.c", "a.b.c"] : List String).head? = some (String.intercalate "."
      ((splitDots "a.b.c").drop ((splitDots "a.b.c").length - 2))) ∧
    ∀ c ∈ (["b.c", "a.b.c"] : List String),
      ∃ i, i + 2 ≤ (splitDots "a.b.c").length ∧
        c = String.intercalate "." ((splitDots "a.b.c").drop i) :=
  (probe_candidates_characterized ⟨[], 100, 0⟩ "a.b.c" (by decide)).1
    ["b.c", "a.b.c"] rfl

/-- Claim C3 counterexample: with the provider recognizing `b.c.com` but
not `a.b.c.com` — and additionally recognizing `c.com` — resolution of
`a.b.c.com` returns `c.com`, not `b.c.com`: probing is most-general-first,
not most-specific-first. -/
theorem resolver_general_first_cex :
    determine_base_domain ⟨[("c.com", []), ("b.c.com", [])], 100, 0⟩
      "a.b.c.com" = .ok ("c.com", []) := rfl

/-- Claim C3 (amended): probing walks from the shortest 2-label suffix
toward longer suffixes and returns the first candidate whose
`describe_record_list` succeeds; for labels `[a,b,c,com]` where the
provider recognizes `b.c.com` but neither `c.com` nor `a.b.c.com`,
resolution returns `b.c.com` (without ever probing `a.b.c.com`). -/
theorem resolver_returns_first_success (s : ProviderState) (e : PyExc)
    (l : List DNSRecord)
    (h1 : describe_record_list s "c.com" = .error e)
    (h2 : describe_record_list s "b.c.com" = .ok l) :
    determine_base_domain s "a.b.c.com" = .ok ("b.c.com", l) := by
  have e2 : String.intercalate "."
      ((["a", "b", "c", "com"] : List String).drop 2) = "c.com" := by decide
  have e1 : String.intercalate "."
      ((["a", "b", "c", "com"] : List String).drop 1) = "b.c.com" := by decide
  have s3 : dbdLoop s ["a", "b", "c", "com"] 3 [] =
      dbdLoop s ["a", "b", "c", "com"] 2 ["c.com"] := by
    have h1' : describe_record_list s (String.intercalate "."
        ((["a", "b", "c", "com"] : List String).drop 2)) = .error e := by
      rw [e2]; exact h1
    simpa [e2] using dbdLoop_step_error s ["a", "b", "c", "com"] 2 [] e h1'
  have s2 : dbdLoop s ["a", "b", "c", "com"] 2 ["c.com"] = .ok ("b.c.com", l) := by
    have h2' : describe_record_list s (String.intercalate "."
        ((["a", "b", "c", "com"] : List String).drop 1)) = .ok l := by
      rw [e1]; exact h2
    simpa [e1] using dbdLoop_step_ok s ["a", "b", "c", "com"] 1 ["c.com"] l h2'
  unfold determine_base_domain
  rw [show splitDots "a.b.c.com" = ["a", "b", "c", "com"] from rfl]
  norm_num
  rw [s3, s2]

theorem resolver_returns_first_success_witness :
    determine_base_domain ⟨[("b.c.com", [])], 100, 0⟩ "a.b.c.com" =
      .ok ("b.c.com", []) :=
  resolver_returns_first_success ⟨[("b.c.com", [])], 100, 0⟩
    (.apiWrap .tcSdk) [] rfl rfl

end TencentDNS

namespace TencentDNS

/-- Claim C6: Setup is idempotent with respect to the zone state: after two
successive successful Setups for the same validation hostname (any tokens),
the resolved zone holds exactly one record at the computed relative name,
namely the TXT record carrying the second token with TTL 600, whose id is
the one stored in the cleanup map — the pre-clean deleted every earlier
record at that name before creating the fresh one. -/
theorem setup_idempotent (s : ProviderState) (m : CleanupMap) (d vn t t' : String)
    (s1 : ProviderState) (m1 : CleanupMap) (s2 : ProviderState) (m2 : CleanupMap)
    (h1 : perform s m d vn t = .ok (s1, m1))
    (h2 : perform s1 m1 d vn t' = .ok (s2, m2)) :
    ∃ base rid, dictFind m2 vn = some (base, rid) ∧
      recordsAt s2 base (sub_domain_of vn base) =
        [⟨sub_domain_of vn base, "TXT", t', 600, rid⟩] := by
  obtain ⟨base, resp, l, lDel, hres, hend, hz, hsub, hns, hm2, hz2⟩ :=
    perform_ok_strong s1 m1 d vn t' s2 m2 h2
  refine ⟨base, s1.nextId, ?_, ?_⟩
  · rw [hm2]
    exact dictFind_dictInsert_self m1 vn (base, s1.nextId)
  · exact recordsAt_append_single s2 base (sub_domain_of vn base) lDel _ hz2 hns rfl

set_option maxRecDepth 16384 in
theorem setup_idempotent_witness :
    ∃ base rid,
      dictFind [("_acme-challenge.foo.example.com", "example.com", 1)]
        "_acme-challenge.foo.example.com" = some (base, rid) ∧
      recordsAt ⟨[("example.com",
          [⟨"_acme-challenge.foo", "TXT", "tok2", 600, 1⟩])], 100, 2⟩ base
          (sub_domain_of "_acme-challenge.foo.example.com" base) =
        [⟨sub_domain_of "_acme-challenge.foo.example.com" base,
          "TXT", "tok2", 600, rid⟩] :=
  setup_idempotent
    ⟨[("example.com", [])], 100, 0⟩ [] "foo.example.com"
    "_acme-challenge.foo.example.com" "tok1" "tok2"
    ⟨[("example.com", [⟨"_acme-challenge.foo", "TXT", "tok1", 600, 0⟩])], 100, 1⟩
    [("_acme-challenge.foo.example.com", "example.com", 0)]
    ⟨[("example.com", [⟨"_acme-challenge.foo", "TXT", "tok2", 600, 1⟩])], 100, 2⟩
    [("_acme-challenge.foo.example.com", "example.com", 1)]
    rfl rfl

/-- Claim C7: when the resolved zone contains a record at the computed
relative name whose type is not TXT (record ids distinct), Setup fails with
the conflict `APIException` and creates no record: the zone after the
failure is a sublist of the zone before it. -/
theorem setup_conflict_on_foreign_type (s : ProviderState) (m : CleanupMap)
    (d vn t base : String) (resp : List DNSRecord)
    (hres : determine_base_domain s d = .ok (base, resp))
    (hend : pyEndsWith vn ("." ++ base) = true)
    (hnd : (resp.map (fun r => r.RecordId)).Nodup)
    (hbad : ∃ r ∈ resp, r.Name = sub_domain_of vn base ∧ r.«Type» ≠ "TXT") :
    ∃ e s' l', perform s m d vn t = .error (.exc e, s') ∧
      e.isConflict = true ∧
      zfind s'.zones base = some l' ∧ List.Sublist l' resp := by
  have hdesc : describe_record_list s base = .ok resp :=
    determine_ok_describe s d base resp hres
  have hz : zfind s.zones base = some resp := describe_ok_zfind s base resp hdesc
  obtain ⟨ty, s', l', hloop, hty, hz', hsub⟩ :=
    deleteLoop_conflict base (sub_domain_of vn base) resp s resp hz
      (fun x hx => hx) hnd hbad
  refine ⟨.apiWrap (.apiMsg (sub_domain_of vn base) base ty), s', l', ?_, rfl,
    hz', hsub⟩
  simp only [perform, hres, hend, if_true, delete_record, hdesc, hloop]

set_option maxRecDepth 16384 in
theorem setup_conflict_on_foreign_type_witness :
    ∃ e s' l',
      perform ⟨[("example.com",
          [⟨"_acme-challenge.foo", "A", "1.2.3.4", 600, 3⟩])], 100, 4⟩
        [] "foo.example.com" "_acme-challenge.foo.example.com" "tok" =
        .error (.exc e, s') ∧
      e.isConflict = true ∧
      zfind s'.zones "example.com" = some l' ∧
      List.Sublist l' [⟨"_acme-challenge.foo", "A", "1.2.3.4", 600, 3⟩] :=
  setup_conflict_on_foreign_type
    ⟨[("example.com", [⟨"_acme-challenge.foo", "A", "1.2.3.4", 600, 3⟩])], 100, 4⟩
    [] "foo.example.com" "_acme-challenge.foo.example.com" "tok" "example.com"
    [⟨"_acme-challenge.foo", "A", "1.2.3.4", 600, 3⟩]
    rfl rfl (by simp)
    ⟨⟨"_acme-challenge.foo", "A", "1.2.3.4", 600, 3⟩, by simp, rfl, by decide⟩

/-- Claim C8: a successful Setup computes the relative name by stripping
the `"." ++ base` suffix, creates the TXT record with the token as value
and TTL 600, stores `(base, record id)` in the cleanup map under the
validation hostname, and the subsequent Cleanup succeeds and deletes
exactly that record id in that zone (provided provider record ids were
consistent, i.e. below the next-id counter). -/
theorem setup_cleanup_end_to_end (s : ProviderState) (m : CleanupMap)
    (d vn t : String) (s1 : ProviderState) (m1 : CleanupMap)
    (hwf : ∀ z lz r, zfind s.zones z = some lz → r ∈ lz → r.RecordId < s.nextId)
    (h : perform s m d vn t = .ok (s1, m1)) :
    ∃ base rid l1 s2,
      dictFind m1 vn = some (base, rid) ∧
      pyEndsWith vn ("." ++ base) = true ∧
      sub_domain_of vn base = vn.take (vn.length - (base.length + 1)) ∧
      recordsAt s1 base (sub_domain_of vn base) =
        [⟨sub_domain_of vn base, "TXT", t, 600, rid⟩] ∧
      zfind s1.zones base = some l1 ∧
      l1.filter (fun r => r.RecordId == rid) =
        [⟨sub_domain_of vn base, "TXT", t, 600, rid⟩] ∧
      cleanup s1 m1 d vn t = (.ok (), s2, m1) ∧
      zfind s2.zones base = some (l1.filter (fun r => r.RecordId != rid)) := by
  obtain ⟨base, resp, l, lDel, hres, hend, hz, hsub, hns, hm1, hz1⟩ :=
    perform_ok_strong s m d vn t s1 m1 h
  have hfind : dictFind m1 vn = some (base, s.nextId) := by
    rw [hm1]
    exact dictFind_dictInsert_self m vn (base, s.nextId)
  have hidlt : ∀ r ∈ lDel, r.RecordId < s.nextId :=
    fun r hr => hwf base l r hz (hsub.mem hr)
  have hfilter_eq : (lDel ++ [(⟨sub_domain_of vn base, "TXT", t, 600, s.nextId⟩ : DNSRecord)]).filter
      (fun r => r.RecordId == s.nextId) =
      [(⟨sub_domain_of vn base, "TXT", t, 600, s.nextId⟩ : DNSRecord)] := by
    rw [List.filter_append]
    have hl : lDel.filter (fun r => r.RecordId == s.nextId) = [] := by
      refine List.filter_eq_nil_iff.2 (fun x hx => ?_)
      simp only [beq_iff_eq]
      exact Nat.ne_of_lt (hidlt x hx)
    rw [hl]
    simp
  have hmem_new : (⟨sub_domain_of vn base, "TXT", t, 600, s.nextId⟩ : DNSRecord) ∈
      (lDel ++ [(⟨sub_domain_of vn base, "TXT", t, 600, s.nextId⟩ : DNSRecord)]) := by simp
  have hany : (lDel ++ [(⟨sub_domain_of vn base, "TXT", t, 600, s.nextId⟩ : DNSRecord)]).any
      (fun r => r.RecordId == s.nextId) = true :=
    List.any_eq_true.2 ⟨_, hmem_new, by simp⟩
  have hdel : sdkDeleteRecord s1 base s.nextId = .ok (ProviderState.mk
      (updateZone s1.zones base
        ((lDel ++ [(⟨sub_domain_of vn base, "TXT", t, 600, s.nextId⟩ : DNSRecord)]).filter
          (fun r => r.RecordId != s.nextId))) s1.pageSize s1.nextId) := by
    simp only [sdkDeleteRecord, hz1, if_pos hany]
  refine ⟨base, s.nextId, lDel ++ [(⟨sub_domain_of vn base, "TXT", t, 600, s.nextId⟩ : DNSRecord)],
    ProviderState.mk (updateZone s1.zones base
      ((lDel ++ [(⟨sub_domain_of vn base, "TXT", t, 600, s.nextId⟩ : DNSRecord)]).filter
        (fun r => r.RecordId != s.nextId))) s1.pageSize s1.nextId,
    hfind, hend, rfl, ?_, hz1, hfilter_eq, ?_, ?_⟩
  · exact recordsAt_append_single s1 base (sub_domain_of vn base) lDel _ hz1 hns rfl
  · simp only [cleanup, hfind, hdel]
  · exact zfind_updateZone_self _ _ _ _ hz1

/-- Claim C10: the pre-clean of Setup is not atomic on conflict: when the
zone listing has a TXT record at the target relative name listed before a
non-TXT record at that same name (with distinct ids, listing within one
page), `delete_record` raises the conflict `APIException` with the earlier
TXT record already deleted from the provider state it leaves behind. -/
theorem preclean_not_atomic (s : ProviderState) (base sub : String)
    (A B : List DNSRecord) (r0 : DNSRecord) (l : List DNSRecord)
    (hz : zfind s.zones base = some l)
    (hsplit : l = A ++ r0 :: B)
    (hpage : l.length ≤ s.pageSize)
    (hnd : (l.map (fun r => r.RecordId)).Nodup)
    (hname : r0.Name = sub) (htype : r0.«Type» = "TXT")
    (hA : ∀ x ∈ A, x.Name = sub → x.«Type» = "TXT")
    (hB : ∃ rb ∈ B, rb.Name = sub ∧ rb.«Type» ≠ "TXT") :
    ∃ e s' l', delete_record s base sub = .error (e, s') ∧
      e.isConflict = true ∧
      zfind s'.zones base = some l' ∧ r0 ∉ l' := by
  subst hsplit
  have hdesc : describe_record_list s base = .ok (A ++ r0 :: B) :=
    describe_ok_of_small s base _ hz hpage
  obtain ⟨ty, s', l', hloop, hz', hsub, hnr0⟩ :=
    deleteLoop_conflict_deleted base sub r0 B A s _ hz (fun x hx => hx) hnd
      hname htype hA hB
  refine ⟨.apiMsg sub base ty, s', l', ?_, rfl, hz', hnr0⟩
  simp only [delete_record, hdesc, hloop]

set_option maxRecDepth 16384 in
theorem preclean_not_atomic_witness :
    ∃ e s' l',
      delete_record ⟨[("z.com", [⟨"_ac", "TXT", "old", 600, 1⟩,
          ⟨"_ac", "A", "1.1.1.1", 600, 2⟩])], 100, 3⟩ "z.com" "_ac" =
        .error (e, s') ∧
      e.isConflict = true ∧
      zfind s'.zones "z.com" = some l' ∧
      (⟨"_ac", "TXT", "old", 600, 1⟩ : DNSRecord) ∉ l' :=
  preclean_not_atomic
    ⟨[("z.com", [⟨"_ac", "TXT", "old", 600, 1⟩,
        ⟨"_ac", "A", "1.1.1.1", 600, 2⟩])], 100, 3⟩ "z.com" "_ac"
    [] [⟨"_ac", "A", "1.1.1.1", 600, 2⟩] ⟨"_ac", "TXT", "old", 600, 1⟩ _
    rfl rfl (by decide) (by decide) rfl rfl (by simp)
    ⟨⟨"_ac", "A", "1.1.1.1", 600, 2⟩, by simp, rfl, by decide⟩

set_option maxRecDepth 16384 in
theorem setup_cleanup_end_to_end_witness :
    ∃ base rid l1 s2,
      dictFind [("_acme-challenge.foo.example.com", "example.com", 0)]
        "_acme-challenge.foo.example.com" = some (base, rid) ∧
      pyEndsWith "_acme-challenge.foo.example.com" ("." ++ base) = true ∧
      sub_domain_of "_acme-challenge.foo.example.com" base =
        String.take "_acme-challenge.foo.example.com"
          ((String.length "_acme-challenge.foo.example.com") - (base.length + 1)) ∧
      recordsAt ⟨[("example.com",
          [⟨"_acme-challenge.foo", "TXT", "tok1", 600, 0⟩])], 100, 1⟩ base
          (sub_domain_of "_acme-challenge.foo.example.com" base) =
        [⟨sub_domain_of "_acme-challenge.foo.example.com" base,
          "TXT", "tok1", 600, rid⟩] ∧
      zfind (ProviderState.mk [("example.com",
          [⟨"_acme-challenge.foo", "TXT", "tok1", 600, 0⟩])] 100 1).zones base =
        some l1 ∧
      l1.filter (fun r => r.RecordId == rid) =
        [⟨sub_domain_of "_acme-challenge.foo.example.com" base,
          "TXT", "tok1", 600, rid⟩] ∧
      cleanup ⟨[("example.com",
          [⟨"_acme-challenge.foo", "TXT", "tok1", 600, 0⟩])], 100, 1⟩
        [("_acme-challenge.foo.example.com", "example.com", 0)]
        "foo.example.com" "_acme-challenge.foo.example.com" "tok1" =
        (.ok (), s2, [("_acme-challenge.foo.example.com", "example.com", 0)]) ∧
      zfind s2.zones base = some (l1.filter (fun r => r.RecordId != rid)) := by
  refine setup_cleanup_end_to_end ⟨[("example.com", [])], 100, 0⟩ []
    "foo.example.com" "_acme-challenge.foo.example.com" "tok1"
    ⟨[("example.com", [⟨"_acme-challenge.foo", "TXT", "tok1", 600, 0⟩])], 100, 1⟩
    [("_acme-challenge.foo.example.com", "example.com", 0)] ?_ rfl
  intro z lz r hzz hr
  by_cases hzec : ("example.com" : String) = z
  · simp only [zfind, if_pos hzec] at hzz
    cases hzz
    simp at hr
  · simp only [zfind, if_neg hzec] at hzz
    cases hzz

end TencentDNS
